import Mathlib

/-!
Shallow embedding of `src/GlossonPharmacy.py` (feyo001/PharmacyApp).

The program keeps two relational tables:
  `inventory(item, quantity, price)` and
  `sales(item, quantity, price, customer, sale_date)`.
We embed each table as a Lean list of rows, in insertion order (an `INSERT`
appends a row; a `SELECT` without `ORDER BY` returns rows in that order,
and `rows[0]` is the head of the list).  Python ints become `Int`, prices
become `Rat` (the arithmetic performed by the program on the claims at hand
is exact), strings that are only compared for equality stay `String`, and
the SQL text inspected character-by-character by `execute_query` becomes
`List Char`.
-/

instance {ε α : Type} [DecidableEq ε] [DecidableEq α] : DecidableEq (Except ε α) := fun x y =>
  match x, y with
  | .error a, .error b => decidable_of_iff (a = b) (by simp)
  | .error _, .ok _ => isFalse (by simp)
  | .ok _, .error _ => isFalse (by simp)
  | .ok a, .ok b => decidable_of_iff (a = b) (by simp)

/-- One row of the `inventory` table: `(item, quantity, price)`. -/
structure InvRow where
  item : String
  quantity : Int
  price : Rat
deriving DecidableEq, Repr

/-- One row of the `sales` table:
`(item, quantity, price, customer, sale_date)`; `sale_date` is an opaque
timestamp token (the program stores `datetime.now()`). -/
structure SaleRow where
  item : String
  quantity : Int
  price : Rat
  customer : String
  sale_date : Nat
deriving DecidableEq, Repr

/-- The `inventory` table, rows in insertion order. -/
abbrev Inventory := List InvRow

/-- The `sales` table, rows in insertion order. -/
abbrev Sales := List SaleRow

/-- `InventoryManager.add_item_to_inventory`:
`INSERT INTO inventory (item, quantity, price) VALUES (%s, %s, %s)` —
appends one row. -/
def add_item_to_inventory (inv : Inventory) (item : String) (quantity : Int)
    (price : Rat) : Inventory :=
  inv ++ [⟨item, quantity, price⟩]

/-- The first definition of `InventoryManager.get_items_in_inventory`
(source lines 61-64): `SELECT item FROM inventory`, returning the list of
names (`[item[0] for item in items] if items else []`). -/
def get_items_in_inventory_v1 (inv : Inventory) : List String :=
  inv.map (fun r => r.item)

/-- The second definition of `InventoryManager.get_items_in_inventory`
(source lines 66-69): `SELECT item, quantity, price FROM inventory`,
returning the full rows (`inventory_data if inventory_data else []`). -/
def get_items_in_inventory_v2 (inv : Inventory) : List (String × Int × Rat) :=
  inv.map (fun r => (r.item, r.quantity, r.price))

/-- `SalesManager.get_item_price`:
`SELECT price FROM inventory WHERE item = %s`, then
`price[0][0] if price else None` — the price of the first matching row,
`none` when no row matches. -/
def get_item_price (inv : Inventory) (item : String) : Option Rat :=
  (inv.find? (fun r => r.item = item)).map (fun r => r.price)

/-- `SalesManager.get_current_quantity`:
`SELECT quantity FROM inventory WHERE item = %s`, then
`quantity[0][0] if quantity else 0` — the quantity of the first matching
row, `0` when no row matches. -/
def get_current_quantity (inv : Inventory) (item : String) : Int :=
  match inv.find? (fun r => r.item = item) with
  | some r => r.quantity
  | none => 0

/-- `UPDATE inventory SET quantity = quantity - %s WHERE item = %s` —
decrements the quantity of every row whose `item` matches. -/
def update_inventory_decrement (inv : Inventory) (item : String) (q : Int) :
    Inventory :=
  inv.map (fun r => if r.item = item then { r with quantity := r.quantity - q } else r)

/-- The two ways `make_sale` aborts: `st.error(f"No price found for item: …")`
and `st.error(f"Insufficient quantity for item: … Avaliable: …")`, each
followed by `return`. -/
inductive SaleAbort where
  | unknownItem (item : String)
  | insufficientStock (item : String) (available : Int)
deriving DecidableEq, Repr

/-- A statement queued in `make_sale`'s `queries` list: either the
`INSERT INTO sales …` or the `UPDATE inventory SET quantity = quantity - …`. -/
inductive PendingWrite where
  | insertSale (r : SaleRow)
  | decrementInv (q : Int) (item : String)
deriving DecidableEq, Repr

/-- The validation loop of `SalesManager.make_sale` (source lines 88-101):
walks the `(item, quantity)` pairs in mapping order against the (unchanged)
inventory, aborting on a missing price or insufficient quantity, otherwise
accumulating the two queued writes per line and the running total. -/
def make_sale_loop (inv : Inventory) (customer : String) (sale_date : Nat) :
    List (String × Int) → Except SaleAbort (List PendingWrite × Rat)
  | [] => .ok ([], 0)
  | (item, quantity) :: rest =>
    match get_item_price inv item with
    | none => .error (.unknownItem item)
    | some item_price =>
      let current_quantity := get_current_quantity inv item
      if current_quantity < quantity then
        .error (.insufficientStock item current_quantity)
      else
        match make_sale_loop inv customer sale_date rest with
        | .error e => .error e
        | .ok (ws, total) =>
          let sale_price := item_price * quantity
          .ok (.insertSale ⟨item, quantity, sale_price, customer, sale_date⟩ ::
                .decrementInv quantity item :: ws,
               sale_price + total)

/-- Applying one queued statement to the two tables
(`for query, params in queries: self.db_manager.execute_query(query, params)`). -/
def apply_pending_write (st : Inventory × Sales) (w : PendingWrite) :
    Inventory × Sales :=
  match w with
  | .insertSale r => (st.1, st.2 ++ [r])
  | .decrementInv q item => (update_inventory_decrement st.1 item q, st.2)

/-- `SalesManager.make_sale` (source lines 83-105): validate every line
first (no writes issued during validation), then execute the queued writes
in order; on success report the summed total. -/
def make_sale (inv : Inventory) (sales : Sales) (items_quantities : List (String × Int))
    (customer : String) (sale_date : Nat) :
    Except SaleAbort Rat × Inventory × Sales :=
  match make_sale_loop inv customer sale_date items_quantities with
  | .error e => (.error e, inv, sales)
  | .ok (queries, total_price) =>
    let st := queries.foldl apply_pending_write (inv, sales)
    (.ok total_price, st.1, st.2)

/-- A sale line that passes both validation checks of the `make_sale` loop
against inventory `inv`: its price lookup succeeds and
`current_quantity < requested_quantity` is false. -/
def line_passes (inv : Inventory) (pq : String × Int) : Prop :=
  get_item_price inv pq.1 ≠ none ∧ ¬ (get_current_quantity inv pq.1 < pq.2)

instance (inv : Inventory) (pq : String × Int) : Decidable (line_passes inv pq) := by
  unfold line_passes
  infer_instance

/-! ## Data Store Gateway (`DatabaseManager.execute_query`)

The SQL text is inspected character-by-character (`startswith`, `strip`,
`upper`), so queries are embedded as `List Char` with the Python string
methods modelled directly.  The driver's behaviour is abstracted by two
parameters: `exec_fails` (does `cursor.execute` raise `psycopg2.Error`?)
and `fetched` (what `cursor.fetchall()` would return). -/

/-- Python `str.startswith`: `pyStartsWith s p` is true when `p` is an
initial segment of `s`. -/
def pyStartsWith : List Char → List Char → Bool
  | _, [] => true
  | [], _ :: _ => false
  | c :: s, d :: p => (c == d) && pyStartsWith s p

/-- The whitespace set stripped by Python `str.strip()`:
space, tab, newline, carriage return, vertical tab, form feed. -/
def pyIsSpace (c : Char) : Bool :=
  c == ' ' || c == '\t' || c == '\n' || c == '\r' ||
    c == Char.ofNat 11 || c == Char.ofNat 12

/-- Leading-whitespace removal (the left half of Python `str.strip()`). -/
def pyLstrip (s : List Char) : List Char :=
  s.dropWhile pyIsSpace

/-- Trailing-whitespace removal (the right half of Python `str.strip()`). -/
def pyRstrip (s : List Char) : List Char :=
  (s.reverse.dropWhile pyIsSpace).reverse

/-- Python `str.strip()`. -/
def pyStrip (s : List Char) : List Char :=
  pyRstrip (pyLstrip s)

/-- Python `str.upper()` (the queries at hand are ASCII). -/
def pyUpper (s : List Char) : List Char :=
  s.map Char.toUpper

/-- The one exception `execute_query` can let escape: `self.conn` is `None`
(a failed `connect_to_db`), so `self.conn.cursor()` raises `AttributeError`,
which the `except Error` clause (matching only `psycopg2.Error`) does not
catch. -/
inductive PyExc where
  | attributeError
deriving DecidableEq, Repr

/-- What a call to `execute_query` leaves behind for its caller and the
store: `retval` is the Python return value (`None` or a rows list) and
`committed` records whether `self.conn.commit()` was issued. -/
structure ExecOut where
  retval : Option (List (List Int))
  committed : Bool
deriving DecidableEq, Repr

/-- `DatabaseManager.execute_query` (source lines 34-51).  With a live
connection: a raising `cursor.execute` is caught (`except Error`), an error
box is shown, and the function returns `None` having committed nothing;
otherwise a commit is issued iff the raw text does not start with the
case-sensitive `"SELECT"`, and the fetched rows are returned iff the
stripped, upper-cased text starts with `"SELECT"`.  With `conn = None` the
attribute access raises, uncaught. -/
def execute_query (conn : Option Unit) (query : List Char) (exec_fails : Bool)
    (fetched : List (List Int)) : Except PyExc ExecOut :=
  match conn with
  | none => .error .attributeError
  | some _ =>
    if exec_fails then
      .ok ⟨none, false⟩
    else
      .ok ⟨if pyStartsWith (pyUpper (pyStrip query)) "SELECT".toList then some fetched else none,
           !pyStartsWith query "SELECT".toList⟩

/-- The `INSERT INTO sales …` statement text issued by `make_sale`. -/
def insert_sales_query : List Char :=
  "INSERT INTO sales (item, quantity, price, customer, sale_date) VALUES (%s,%s,%s,%s,%s)".toList

/-! ## The `InventoryManager` class body (for the shadowing claim)

A Python class body executes top to bottom; each `def` is an assignment
into the class namespace dict, a later assignment to the same key
overwriting the earlier one.  We model the namespace as an association
list built by sequential assignment and tag each `def` of the source. -/

/-- The four `def`s of `class InventoryManager`, in source order.  The two
`get_items_in_inventory` definitions are tagged by what they return. -/
inductive InvMethodTag where
  | addItem
  | listNames
  | listTriples
  | listSales
deriving DecidableEq, Repr

/-- Dict assignment `d[k] = v`: overwrite the value at an existing key,
else append a new binding. -/
def dict_assign {α : Type} : List (String × α) → String → α → List (String × α)
  | [], k, v => [(k, v)]
  | (k', v') :: rest, k, v =>
    if k' = k then (k, v) :: rest else (k', v') :: dict_assign rest k v

/-- Executing a class body: sequential dict assignment into an initially
empty namespace. -/
def build_class_namespace {α : Type} (defs : List (String × α)) : List (String × α) :=
  defs.foldl (fun d p => dict_assign d p.1 p.2) []

/-- The `def`s of `class InventoryManager` in source order (lines 57, 61,
66, 71). -/
def inventory_manager_class_body : List (String × InvMethodTag) :=
  [("add_item_to_inventory", .addItem),
   ("get_items_in_inventory", .listNames),
   ("get_items_in_inventory", .listTriples),
   ("get_items_in_sales", .listSales)]

/-- Attribute lookup on the built namespace. -/
def class_attr_lookup {α : Type} (ns : List (String × α)) (name : String) : Option α :=
  (ns.find? (fun p => p.1 = name)).map (fun p => p.2)

/-! ## Interleaving model for concurrent `make_sale` calls

`make_sale({x: 1}, cust)` with the price row present issues exactly four
statements through the gateway, in order: the price `SELECT`, the quantity
`SELECT` (followed by the in-process comparison and branch), the sales
`INSERT`, and the inventory `UPDATE`.  Each statement is a single
auto-committed SQL statement, hence atomic at the store; between
statements, other sessions' statements may run.  A process is therefore a
five-position program whose steps act on the shared tables through the very
operations embedded above; a schedule is the order in which the store
serves the processes' next statements. -/

/-- Program position of one in-flight `make_sale({x: 1}, cust)` call.
`checkQty` and `insertLine` carry the price fetched by the first
statement (the local `item_price`). -/
inductive SalePC where
  | readPrice
  | checkQty (item_price : Rat)
  | insertLine (item_price : Rat)
  | updateQty
  | done
  | failed
deriving DecidableEq, Repr

/-- Shared tables plus each process's program position. -/
structure ConcState (N : ℕ) where
  inv : Inventory
  sales : Sales
  pcs : Fin N → SalePC

/-- One atomic statement of process `i` selling one unit of `x`:
`get_item_price`, then `get_current_quantity` plus the
`current_quantity < quantity` branch (with `quantity = 1`), then the
sales `INSERT`, then the inventory `UPDATE` decrement. -/
def conc_step {N : ℕ} (x : String) (cust : Fin N → String) (d : Nat)
    (s : ConcState N) (i : Fin N) : ConcState N :=
  match s.pcs i with
  | .readPrice =>
    match get_item_price s.inv x with
    | none => { s with pcs := Function.update s.pcs i .failed }
    | some p => { s with pcs := Function.update s.pcs i (.checkQty p) }
  | .checkQty p =>
    if get_current_quantity s.inv x < 1 then
      { s with pcs := Function.update s.pcs i .failed }
    else
      { s with pcs := Function.update s.pcs i (.insertLine p) }
  | .insertLine p =>
    { s with sales := s.sales ++ [⟨x, 1, p * 1, cust i, d⟩],
             pcs := Function.update s.pcs i .updateQty }
  | .updateQty =>
    { s with inv := update_inventory_decrement s.inv x 1,
             pcs := Function.update s.pcs i .done }
  | .done => s
  | .failed => s

/-- Starting state for the C7 scenario: one inventory row `(x, N, p)`, an
empty sales table, all `N` callers about to issue their price `SELECT`. -/
def conc_init (x : String) (p : Rat) (N : ℕ) : ConcState N :=
  ⟨[⟨x, (N : Int), p⟩], [], fun _ => .readPrice⟩

/-- Run a schedule: serve the listed processes' next statements in order. -/
def conc_run {N : ℕ} (x : String) (cust : Fin N → String) (d : Nat)
    (s : ConcState N) (sched : List (Fin N)) : ConcState N :=
  sched.foldl (conc_step x cust d) s

/-- The number of processes whose position satisfies `P`. -/
def pc_count {N : ℕ} (pcs : Fin N → SalePC) (P : SalePC → Prop) [DecidablePred P] : ℕ :=
  (Finset.univ.filter (fun i => P (pcs i))).card

/-- The inductive invariant of the C7 scenario: no process has failed, the
single inventory row holds `N` minus the number of completed decrements
(a process's decrement is its last statement, so completed decrements are
the processes at `done`), and the sales table holds one row per process
whose `INSERT` has executed (positions `updateQty` and `done`). -/
def conc_inv (x : String) (p : Rat) (N : ℕ) (s : ConcState N) : Prop :=
  (∀ i, s.pcs i ≠ .failed) ∧
  s.inv = [⟨x, (N : Int) - (pc_count s.pcs (fun pc => pc = .done) : Int), p⟩] ∧
  s.sales.length = pc_count s.pcs (fun pc => pc = .updateQty ∨ pc = .done)

/-- C1 — happy path of `make_sale` against aspirin quantity 10, price 2.00:
succeeds with total 10.00, leaves quantity 5, inserts exactly one sale row
`("aspirin", 5, 10.00, "Alice", d)`.  (Concrete-instance check.) -/
theorem C1_make_sale_success (d : Nat) :
    make_sale [⟨"aspirin", 10, 2⟩] [] [("aspirin", 5)] "Alice" d =
      (.ok 10, [⟨"aspirin", 5, 2⟩], [⟨"aspirin", 5, 10, "Alice", d⟩]) := by
  simp [make_sale, make_sale_loop, get_item_price, get_current_quantity,
    apply_pending_write, update_inventory_decrement, List.find?]
  norm_num

/-- C9 — `make_sale` with an empty line-items mapping: no writes (both
tables unchanged) and success with total 0, for every customer. -/
theorem C9_make_sale_empty (inv : Inventory) (sales : Sales)
    (customer : String) (d : Nat) :
    make_sale inv sales [] customer d = (.ok 0, inv, sales) := by
  simp [make_sale, make_sale_loop]

/-- If the validation loop aborts, `make_sale` returns that abort and
leaves both tables untouched (the queued-writes list is never executed). -/
theorem make_sale_of_loop_error {inv : Inventory} {sales : Sales}
    {items : List (String × Int)} {customer : String} {d : Nat} {e : SaleAbort}
    (h : make_sale_loop inv customer d items = .error e) :
    make_sale inv sales items customer d = (.error e, inv, sales) := by
  simp [make_sale, h]

/-- Lines that pass validation are walked through, so an abort arising in
the remainder of the request is the abort of the whole request. -/
theorem make_sale_loop_append_of_passes {inv : Inventory} {customer : String}
    {d : Nat} {rest : List (String × Int)} {e : SaleAbort}
    (pre : List (String × Int))
    (hpre : ∀ pq ∈ pre, line_passes inv pq)
    (h : make_sale_loop inv customer d rest = .error e) :
    make_sale_loop inv customer d (pre ++ rest) = .error e := by
  induction pre with
  | nil => simpa using h
  | cons hd tl ih =>
    obtain ⟨hp, hq⟩ := hpre hd (by simp)
    obtain ⟨pr, hpr⟩ := Option.ne_none_iff_exists'.mp hp
    have ih2 := ih (fun pq hm => hpre pq (by simp [hm]))
    obtain ⟨item, q⟩ := hd
    simp only [List.cons_append, make_sale_loop, hpr, List.append_eq]
    rw [if_neg hq, ih2]

/-- C2 counterexample — a request that contains an insufficient-stock line
(aspirin: 50 requested, 5 available) but whose first line is an unknown
item: `make_sale` aborts with the unknown-item error, not
`InsufficientStockError`. -/
theorem C2_counterexample :
    ("aspirin", (50 : Int)) ∈ [("ghost", (1 : Int)), ("aspirin", 50)] ∧
    get_current_quantity [⟨"aspirin", 5, 2⟩] "aspirin" < 50 ∧
    (make_sale [⟨"aspirin", 5, 2⟩] [] [("ghost", 1), ("aspirin", 50)] "Bob" 0).1 =
      .error (.unknownItem "ghost") ∧
    (make_sale [⟨"aspirin", 5, 2⟩] [] [("ghost", 1), ("aspirin", 50)] "Bob" 0).1 ≠
      .error (.insufficientStock "aspirin" 5) := by
  decide

/-- C2 (amended) — if every line before some priced line with
`current_quantity < requested_quantity` passes validation, `make_sale`
fails with `InsufficientStockError` carrying that item's available
quantity, and performs no writes: both tables are returned unchanged. -/
theorem C2_insufficient_stock_aborts (inv : Inventory) (sales : Sales)
    (customer : String) (d : Nat) (pre post : List (String × Int))
    (item : String) (q : Int) (pr : Rat)
    (hpre : ∀ pq ∈ pre, line_passes inv pq)
    (hprice : get_item_price inv item = some pr)
    (hstock : get_current_quantity inv item < q) :
    make_sale inv sales (pre ++ (item, q) :: post) customer d =
      (.error (.insufficientStock item (get_current_quantity inv item)), inv, sales) := by
  apply make_sale_of_loop_error
  apply make_sale_loop_append_of_passes pre hpre
  simp only [make_sale_loop, hprice]
  rw [if_pos hstock]

/-- C2 witness — the spec's own instance: aspirin 50 requested against
quantity 5, price 2.00 present. -/
theorem C2_insufficient_stock_aborts_witness :
    make_sale [⟨"aspirin", 5, 2⟩] [] [("aspirin", 50)] "Bob" 0 =
      (.error (.insufficientStock "aspirin" 5), [⟨"aspirin", 5, 2⟩], []) := by
  have h := C2_insufficient_stock_aborts [⟨"aspirin", 5, 2⟩] [] "Bob" 0 [] []
    "aspirin" 50 2 (by decide) (by decide) (by decide)
  simpa using h

/-- C3 counterexample — a request that contains an unknown-item line
(ghost has no price) but whose first line fails the stock check:
`make_sale` aborts with `InsufficientStockError`, not `UnknownItemError`. -/
theorem C3_counterexample :
    get_item_price [⟨"aspirin", 5, 2⟩] "ghost" = none ∧
    ("ghost", (1 : Int)) ∈ [("aspirin", (50 : Int)), ("ghost", 1)] ∧
    (make_sale [⟨"aspirin", 5, 2⟩] [] [("aspirin", 50), ("ghost", 1)] "Carl" 0).1 =
      .error (.insufficientStock "aspirin" 5) ∧
    (make_sale [⟨"aspirin", 5, 2⟩] [] [("aspirin", 50), ("ghost", 1)] "Carl" 0).1 ≠
      .error (.unknownItem "ghost") := by
  decide

/-- C3 (amended) — if every line before some line whose item has no price
passes validation, `make_sale` aborts with `UnknownItemError` naming that
item, and performs no writes: both tables are returned unchanged. -/
theorem C3_unknown_item_aborts (inv : Inventory) (sales : Sales)
    (customer : String) (d : Nat) (pre post : List (String × Int))
    (item : String) (q : Int)
    (hpre : ∀ pq ∈ pre, line_passes inv pq)
    (hitem : get_item_price inv item = none) :
    make_sale inv sales (pre ++ (item, q) :: post) customer d =
      (.error (.unknownItem item), inv, sales) := by
  apply make_sale_of_loop_error
  apply make_sale_loop_append_of_passes pre hpre
  simp only [make_sale_loop, hitem]

/-- C3 witness — the spec's own instance: `{"unknownitem": 1}` against an
inventory that does not price it. -/
theorem C3_unknown_item_aborts_witness :
    make_sale [⟨"aspirin", 5, 2⟩] [] [("unknownitem", 1)] "Carl" 0 =
      (.error (.unknownItem "unknownitem"), [⟨"aspirin", 5, 2⟩], []) := by
  have h := C3_unknown_item_aborts [⟨"aspirin", 5, 2⟩] [] "Carl" 0 [] []
    "unknownitem" 1 (by decide) (by decide)
  simpa using h

/-- C4 — on an item name with no inventory row, `get_item_price` returns
`none` and `get_current_quantity` returns `0`; a zero-priced row, by
contrast, yields `some 0`, so an unknown item is distinguishable from an
item priced at zero. -/
theorem C4_absent_item_lookups (inv : Inventory) (name : String)
    (habs : ∀ r ∈ inv, r.item ≠ name) :
    get_item_price inv name = none ∧
    get_current_quantity inv name = 0 ∧
    get_item_price (⟨name, 1, 0⟩ :: inv) name = some 0 := by
  have hfind : inv.find? (fun r => r.item = name) = none := by
    rw [List.find?_eq_none]
    intro r hr
    simpa using habs r hr
  refine ⟨?_, ?_, ?_⟩
  · simp [get_item_price, hfind]
  · simp [get_current_quantity, hfind]
  · simp [get_item_price, List.find?]

/-- C4 witness — `"ghost"` is absent from a one-row inventory. -/
theorem C4_absent_item_lookups_witness :
    get_item_price [⟨"aspirin", 5, 2⟩] "ghost" = none ∧
    get_current_quantity [⟨"aspirin", 5, 2⟩] "ghost" = 0 ∧
    get_item_price (⟨"ghost", 1, 0⟩ :: [⟨"aspirin", 5, 2⟩]) "ghost" = some 0 :=
  C4_absent_item_lookups [⟨"aspirin", 5, 2⟩] "ghost" (by decide)

/-- C5 — for every valid `(name, qty ≥ 1, price ≥ 0)`, adding the item and
listing the inventory shows the row; adding it a second time leaves the
earlier rows in place and adds a duplicate row (the row's multiplicity
grows by one — no merge, no replacement). -/
theorem C5_add_item_then_list (inv : Inventory) (name : String) (qty : Int)
    (price : Rat) (hname : name ≠ "") (hq : 1 ≤ qty) (hp : 0 ≤ price) :
    (name, qty, price) ∈ get_items_in_inventory_v2 (add_item_to_inventory inv name qty price) ∧
    (get_items_in_inventory_v2
        (add_item_to_inventory (add_item_to_inventory inv name qty price) name qty price)).count
        (name, qty, price) =
      (get_items_in_inventory_v2 (add_item_to_inventory inv name qty price)).count
        (name, qty, price) + 1 ∧
    (∀ row ∈ get_items_in_inventory_v2 (add_item_to_inventory inv name qty price),
        row ∈ get_items_in_inventory_v2
          (add_item_to_inventory (add_item_to_inventory inv name qty price) name qty price)) := by
  unfold add_item_to_inventory get_items_in_inventory_v2
  refine ⟨by simp, ?_, ?_⟩
  · simp [List.count_append]
  · intro row hrow
    simp only [List.map_append] at hrow ⊢
    exact List.mem_append_left _ hrow

/-- C5 witness — adding `("aspirin", 1, 0)` twice to an empty inventory. -/
theorem C5_add_item_then_list_witness :
    ("aspirin", (1 : Int), (0 : Rat)) ∈
      get_items_in_inventory_v2 (add_item_to_inventory [] "aspirin" 1 0) ∧
    (get_items_in_inventory_v2
        (add_item_to_inventory (add_item_to_inventory [] "aspirin" 1 0) "aspirin" 1 0)).count
        ("aspirin", (1 : Int), (0 : Rat)) =
      (get_items_in_inventory_v2 (add_item_to_inventory [] "aspirin" 1 0)).count
        ("aspirin", (1 : Int), (0 : Rat)) + 1 ∧
    (∀ row ∈ get_items_in_inventory_v2 (add_item_to_inventory [] "aspirin" 1 0),
        row ∈ get_items_in_inventory_v2
          (add_item_to_inventory (add_item_to_inventory [] "aspirin" 1 0) "aspirin" 1 0)) :=
  C5_add_item_then_list [] "aspirin" 1 0 (by decide) (by decide) (by decide)

/-- `pyStartsWith s p` holds exactly when `s` is `p` followed by a tail. -/
theorem pyStartsWith_iff (s p : List Char) :
    pyStartsWith s p = true ↔ ∃ t, s = p ++ t := by
  induction p generalizing s with
  | nil => simp [pyStartsWith]
  | cons d p ih =>
    cases s with
    | nil => simp [pyStartsWith]
    | cons c s =>
      simp only [pyStartsWith, Bool.and_eq_true, beq_iff_eq, ih, List.cons_append,
        List.cons.injEq]
      constructor
      · rintro ⟨hcd, t, ht⟩
        exact ⟨t, hcd, ht⟩
      · rintro ⟨t, hcd, ht⟩
        exact ⟨hcd, t, ht⟩

/-- Any list starts with its own initial segment. -/
theorem pyStartsWith_append (p t : List Char) : pyStartsWith (p ++ t) p = true :=
  (pyStartsWith_iff _ _).mpr ⟨t, rfl⟩

/-- `str.upper()` preserves `startswith`. -/
theorem pyUpper_pyStartsWith {s p : List Char} (h : pyStartsWith s p = true) :
    pyStartsWith (pyUpper s) (pyUpper p) = true := by
  obtain ⟨t, rfl⟩ := (pyStartsWith_iff _ _).mp h
  unfold pyUpper
  rw [List.map_append]
  exact pyStartsWith_append _ _

/-- Stripping trailing whitespace cannot disturb an initial segment made of
non-whitespace characters. -/
theorem pyRstrip_pyStartsWith {s p : List Char} (h : pyStartsWith s p = true)
    (hp : p ≠ []) (hnw : ∀ c ∈ p, pyIsSpace c = false) :
    pyStartsWith (pyRstrip s) p = true := by
  obtain ⟨t, rfl⟩ := (pyStartsWith_iff _ _).mp h
  unfold pyRstrip
  rw [List.reverse_append, List.dropWhile_append]
  by_cases he : (t.reverse.dropWhile pyIsSpace).isEmpty
  · rw [if_pos he]
    have hrev : p.reverse ≠ [] := by simpa using hp
    obtain ⟨c, l, hcl⟩ := List.exists_cons_of_ne_nil hrev
    have hc : c ∈ p := by
      rw [← List.mem_reverse, hcl]
      simp
    rw [hcl, List.dropWhile_cons_of_neg (by simp [hnw c hc]), ← hcl, List.reverse_reverse]
    exact (pyStartsWith_iff _ _).mpr ⟨[], by simp⟩
  · rw [if_neg he, List.reverse_append, List.reverse_reverse]
    exact pyStartsWith_append _ _

/-- `startswith` pins the first character. -/
theorem pyStartsWith_head {c d : Char} {s p : List Char}
    (h : pyStartsWith (c :: s) (d :: p) = true) : c = d := by
  simp only [pyStartsWith, Bool.and_eq_true, beq_iff_eq] at h
  exact h.1

/-- C10 — the gateway's read/write dispatch uses two different tests on the
statement text: a commit is issued iff the raw text lacks the
case-sensitive `"SELECT"` initial segment, while rows are returned iff the
stripped, upper-cased text has it.  Consequently a statement beginning with
lowercase `"select"`, or with whitespace before `"SELECT"`, is treated as
both: the connection is committed and the fetched rows are returned. -/
theorem C10_dispatch_asymmetry :
    (∀ q fetched, ∃ out, execute_query (some ()) q false fetched = .ok out ∧
        (out.committed = true ↔ pyStartsWith q "SELECT".toList = false) ∧
        (out.retval = some fetched ↔
          pyStartsWith (pyUpper (pyStrip q)) "SELECT".toList = true)) ∧
    (∀ q fetched, pyStartsWith q "select".toList = true →
        execute_query (some ()) q false fetched = .ok ⟨some fetched, true⟩) ∧
    (∀ c w fetched, pyIsSpace c = true → pyStartsWith w "SELECT".toList = true →
        execute_query (some ()) (c :: w) false fetched = .ok ⟨some fetched, true⟩) := by
  refine ⟨fun q fetched => ?_, fun q fetched h => ?_, fun c w fetched hc hw => ?_⟩
  · refine ⟨_, rfl, ?_, ?_⟩
    · simp [Bool.not_eq_true']
    · by_cases ht : pyStartsWith (pyUpper (pyStrip q)) "SELECT".toList = true
      · simp [ht]
      · simp [ht]
  · obtain ⟨t, rfl⟩ := (pyStartsWith_iff _ _).mp h
    have hq : "select".toList ++ t = 's' :: ("elect".toList ++ t) := rfl
    have hraw : pyStartsWith ("select".toList ++ t) "SELECT".toList = false := by
      rw [hq]
      by_contra hcon
      rw [Bool.not_eq_false] at hcon
      have : 's' = 'S' := pyStartsWith_head (p := "ELECT".toList) hcon
      simp at this
    have hstripped : pyStrip ("select".toList ++ t) = pyRstrip ("select".toList ++ t) := by
      unfold pyStrip
      rw [hq, pyLstrip]
      rw [List.dropWhile_cons_of_neg (by simp [pyIsSpace])]
    have hlower : pyStartsWith (pyRstrip ("select".toList ++ t)) "select".toList = true :=
      pyRstrip_pyStartsWith (pyStartsWith_append _ _) (by simp) (by decide)
    have hupper : pyStartsWith (pyUpper (pyStrip ("select".toList ++ t))) "SELECT".toList = true := by
      rw [hstripped]
      have := pyUpper_pyStartsWith hlower
      simpa [show pyUpper "select".toList = "SELECT".toList from rfl] using this
    have hfin : execute_query (some ()) ("select".toList ++ t) false fetched =
        .ok ⟨if pyStartsWith (pyUpper (pyStrip ("select".toList ++ t))) "SELECT".toList
              then some fetched else none,
             !pyStartsWith ("select".toList ++ t) "SELECT".toList⟩ := rfl
    rw [hfin, hupper, hraw]
    simp
  · obtain ⟨t, rfl⟩ := (pyStartsWith_iff _ _).mp hw
    have hw2 : "SELECT".toList ++ t = 'S' :: ("ELECT".toList ++ t) := rfl
    have hraw : pyStartsWith (c :: ("SELECT".toList ++ t)) "SELECT".toList = false := by
      by_contra hcon
      rw [Bool.not_eq_false] at hcon
      have : c = 'S' := pyStartsWith_head (p := "ELECT".toList) hcon
      rw [this] at hc
      simp [pyIsSpace] at hc
    have hstrip : pyStrip (c :: ("SELECT".toList ++ t)) = pyRstrip ("SELECT".toList ++ t) := by
      unfold pyStrip pyLstrip
      rw [List.dropWhile_cons_of_pos (by simp [hc]), hw2]
      rw [List.dropWhile_cons_of_neg (by simp [pyIsSpace])]
    have hkept : pyStartsWith (pyRstrip ("SELECT".toList ++ t)) "SELECT".toList = true :=
      pyRstrip_pyStartsWith (pyStartsWith_append _ _) (by simp) (by decide)
    have hupper : pyStartsWith (pyUpper (pyStrip (c :: ("SELECT".toList ++ t)))) "SELECT".toList = true := by
      rw [hstrip]
      have := pyUpper_pyStartsWith hkept
      simpa [show pyUpper "SELECT".toList = "SELECT".toList from rfl] using this
    have hfin : execute_query (some ()) (c :: ("SELECT".toList ++ t)) false fetched =
        .ok ⟨if pyStartsWith (pyUpper (pyStrip (c :: ("SELECT".toList ++ t)))) "SELECT".toList
              then some fetched else none,
             !pyStartsWith (c :: ("SELECT".toList ++ t)) "SELECT".toList⟩ := rfl
    rw [hfin, hupper, hraw]
    simp

/-- C10 witness — `"select price FROM inventory"` both commits and returns
the fetched rows. -/
theorem C10_dispatch_asymmetry_witness :
    execute_query (some ()) "select price FROM inventory".toList false [[7]] =
      .ok ⟨some [[7]], true⟩ :=
  C10_dispatch_asymmetry.2.1 "select price FROM inventory".toList [[7]] (by decide)

/-- C6 counterexample — a failed `INSERT` (driver raises, caught by
`except Error`) and a successful `INSERT` both hand the caller Python
`None` without raising: the caller cannot tell them apart, so the failure
is silently swallowed as far as the caller is concerned (it is only shown
on the UI surface). -/
theorem C6_counterexample :
    (execute_query (some ()) insert_sales_query true []).map ExecOut.retval = .ok none ∧
    (execute_query (some ()) insert_sales_query false []).map ExecOut.retval = .ok none := by
  decide

/-- C6 (amended) — what the gateway actually reports: a missing connection
raises an uncaught exception (the `except` clause only matches the driver's
error class); a raising statement is caught and the call returns `None`
with nothing committed — exactly what a successful write returns; a
successful read returns `some` rows, so only for reads is a failure
(`None`) distinguishable from an empty success (`some []`). -/
theorem C6_gateway_reporting (q : List Char) (ef : Bool) (fetched : List (List Int)) :
    execute_query none q ef fetched = .error .attributeError ∧
    execute_query (some ()) q true fetched = .ok ⟨none, false⟩ ∧
    (pyStartsWith (pyUpper (pyStrip q)) "SELECT".toList = true →
      (execute_query (some ()) q false fetched).map ExecOut.retval = .ok (some fetched)) := by
  refine ⟨rfl, rfl, fun h => ?_⟩
  have hfin : execute_query (some ()) q false fetched =
      .ok ⟨if pyStartsWith (pyUpper (pyStrip q)) "SELECT".toList
            then some fetched else none,
           !pyStartsWith q "SELECT".toList⟩ := rfl
  rw [hfin, h]
  simp [Except.map]

/-- C6 witness — the price `SELECT` issued by `get_item_price`, succeeding
with one fetched row. -/
theorem C6_gateway_reporting_witness :
    (execute_query (some ()) "SELECT price FROM inventory WHERE item = %s".toList
        false [[5]]).map ExecOut.retval = .ok (some [[5]]) :=
  (C6_gateway_reporting "SELECT price FROM inventory WHERE item = %s".toList
    false [[5]]).2.2 (by decide)

/-- C8 — executing the class body resolves `get_items_in_inventory` to the
second, three-column definition: the namespace lookup yields the
triple-returning variant (the names-only variant is shadowed and never
reachable), and that variant lists every row as a full
`(name, quantity, price)` triple, the empty list on an empty table. -/
theorem C8_listing_resolves_to_triples :
    class_attr_lookup (build_class_namespace inventory_manager_class_body)
      "get_items_in_inventory" = some .listTriples ∧
    class_attr_lookup (build_class_namespace inventory_manager_class_body)
      "get_items_in_inventory" ≠ some .listNames ∧
    (∀ inv : Inventory, (get_items_in_inventory_v2 inv).length = inv.length) ∧
    (∀ inv : Inventory, ∀ r ∈ inv,
        (r.item, r.quantity, r.price) ∈ get_items_in_inventory_v2 inv) ∧
    get_items_in_inventory_v2 [] = [] := by
  refine ⟨by decide, by decide, fun inv => by simp [get_items_in_inventory_v2],
    fun inv r hr => ?_, rfl⟩
  exact List.mem_map_of_mem _ hr

/-- C8 witness — a one-row inventory is listed as its triple. -/
theorem C8_listing_resolves_to_triples_witness :
    ("aspirin", (5 : Int), (2 : Rat)) ∈ get_items_in_inventory_v2 [⟨"aspirin", 5, 2⟩] :=
  C8_listing_resolves_to_triples.2.2.2.1 [⟨"aspirin", 5, 2⟩] ⟨"aspirin", 5, 2⟩ (by decide)

/-- Updating one process's position does not change a position count when
the new and old positions fall on the same side of the predicate. -/
theorem pc_count_update_of_iff {N : ℕ} (pcs : Fin N → SalePC) (i : Fin N)
    (v : SalePC) (P : SalePC → Prop) [DecidablePred P] (h : P v ↔ P (pcs i)) :
    pc_count (Function.update pcs i v) P = pc_count pcs P := by
  unfold pc_count
  congr 1
  apply Finset.filter_congr
  intro j _
  rcases eq_or_ne j i with rfl | hne
  · simpa [Function.update_apply] using h
  · simp [Function.update_apply, hne]

/-- Moving one process into the counted class raises the count by one. -/
theorem pc_count_update_add_one {N : ℕ} (pcs : Fin N → SalePC) (i : Fin N)
    (v : SalePC) (P : SalePC → Prop) [DecidablePred P] (hv : P v)
    (hi : ¬ P (pcs i)) :
    pc_count (Function.update pcs i v) P = pc_count pcs P + 1 := by
  unfold pc_count
  have hins : Finset.univ.filter (fun j => P (Function.update pcs i v j)) =
      insert i (Finset.univ.filter (fun j => P (pcs j))) := by
    ext j
    rcases eq_or_ne j i with rfl | hne
    · simp [Function.update_apply, hv]
    · simp [Function.update_apply, hne]
  rw [hins, Finset.card_insert_of_not_mem (by simp [hi])]

/-- A process outside the counted class bounds the count away from `N`. -/
theorem pc_count_add_one_le {N : ℕ} (pcs : Fin N → SalePC) (i : Fin N)
    (P : SalePC → Prop) [DecidablePred P] (hi : ¬ P (pcs i)) :
    pc_count pcs P + 1 ≤ N := by
  unfold pc_count
  have hsub : Finset.univ.filter (fun j => P (pcs j)) ⊆ Finset.univ.erase i := by
    intro j hj
    simp only [Finset.mem_filter] at hj
    refine Finset.mem_erase.mpr ⟨?_, Finset.mem_univ _⟩
    rintro rfl
    exact hi hj.2
  have hcard := Finset.card_le_card hsub
  have herase : (Finset.univ.erase i).card = N - 1 := by
    rw [Finset.card_erase_of_mem (Finset.mem_univ _)]
    simp
  have hpos : 0 < N := i.pos
  omega

/-- When every process is in the counted class the count is `N`. -/
theorem pc_count_univ_of_all {N : ℕ} (pcs : Fin N → SalePC)
    (P : SalePC → Prop) [DecidablePred P] (h : ∀ i, P (pcs i)) :
    pc_count pcs P = N := by
  unfold pc_count
  rw [Finset.filter_true_of_mem (fun i _ => h i)]
  simp

/-- One atomic statement of any process preserves the C7 invariant. -/
theorem conc_inv_step (x : String) (p : Rat) {N : ℕ} (cust : Fin N → String)
    (d : Nat) (s : ConcState N) (i : Fin N) (h : conc_inv x p N s) :
    conc_inv x p N (conc_step x cust d s i) := by
  obtain ⟨hnf, hinv, hsl⟩ := h
  have hprice : get_item_price s.inv x = some p := by
    rw [hinv]
    simp [get_item_price, List.find?]
  have hqty : get_current_quantity s.inv x =
      (N : Int) - (pc_count s.pcs (fun pc => pc = .done) : Int) := by
    rw [hinv]
    simp [get_current_quantity, List.find?]
  cases hpc : s.pcs i with
  | readPrice =>
    simp only [conc_step, hpc, hprice]
    refine ⟨fun j => ?_, ?_, ?_⟩
    · rcases eq_or_ne j i with rfl | hne
      · simp [Function.update_apply]
      · simp only [Function.update_apply, if_neg hne]
        exact hnf j
    · rw [pc_count_update_of_iff _ _ _ _ (by simp [hpc])]
      exact hinv
    · rw [pc_count_update_of_iff _ _ _ _ (by simp [hpc])]
      exact hsl
  | checkQty pr =>
    have hnotdone : ¬ (s.pcs i = SalePC.done) := by simp [hpc]
    have hbound := pc_count_add_one_le s.pcs i (fun pc => pc = SalePC.done) hnotdone
    have hge : ¬ (get_current_quantity s.inv x < 1) := by
      rw [hqty]
      have : (pc_count s.pcs (fun pc => pc = .done) : Int) + 1 ≤ (N : Int) := by
        exact_mod_cast hbound
      omega
    simp only [conc_step, hpc, if_neg hge]
    refine ⟨fun j => ?_, ?_, ?_⟩
    · rcases eq_or_ne j i with rfl | hne
      · simp [Function.update_apply]
      · simp only [Function.update_apply, if_neg hne]
        exact hnf j
    · rw [pc_count_update_of_iff _ _ _ _ (by simp [hpc])]
      exact hinv
    · rw [pc_count_update_of_iff _ _ _ _ (by simp [hpc])]
      exact hsl
  | insertLine pr =>
    simp only [conc_step, hpc]
    refine ⟨fun j => ?_, ?_, ?_⟩
    · rcases eq_or_ne j i with rfl | hne
      · simp [Function.update_apply]
      · simp only [Function.update_apply, if_neg hne]
        exact hnf j
    · rw [pc_count_update_of_iff _ _ _ _ (by simp [hpc])]
      exact hinv
    · rw [pc_count_update_add_one _ _ _ _ (by simp) (by simp [hpc])]
      simp [hsl]
  | updateQty =>
    simp only [conc_step, hpc]
    refine ⟨fun j => ?_, ?_, ?_⟩
    · rcases eq_or_ne j i with rfl | hne
      · simp [Function.update_apply]
      · simp only [Function.update_apply, if_neg hne]
        exact hnf j
    · rw [pc_count_update_add_one _ _ _ _ (by simp) (by simp [hpc])]
      rw [hinv]
      simp only [update_inventory_decrement, List.map_cons, List.map_nil, if_pos rfl]
      have : (N : Int) - ((pc_count s.pcs (fun pc => pc = .done) : ℕ) : Int) - 1 =
          (N : Int) - (((pc_count s.pcs (fun pc => pc = .done) + 1 : ℕ) : Int)) := by
        push_cast
        ring
      simp [this]
    · rw [pc_count_update_of_iff _ _ _ _ (by simp [hpc])]
      exact hsl
  | done =>
    simp only [conc_step, hpc]
    exact ⟨hnf, hinv, hsl⟩
  | failed =>
    exact absurd hpc (hnf i)

/-- Any schedule preserves the C7 invariant. -/
theorem conc_inv_run (x : String) (p : Rat) {N : ℕ} (cust : Fin N → String)
    (d : Nat) (sched : List (Fin N)) (s : ConcState N) (h : conc_inv x p N s) :
    conc_inv x p N (conc_run x cust d s sched) := by
  induction sched generalizing s with
  | nil => exact h
  | cons a l ih =>
    have hstep := conc_inv_step x p cust d s a h
    simpa [conc_run] using ih _ hstep

/-- The C7 starting state satisfies the invariant. -/
theorem conc_inv_init (x : String) (p : Rat) (N : ℕ) :
    conc_inv x p N (conc_init x p N) := by
  refine ⟨fun i => by simp [conc_init], ?_, ?_⟩
  · unfold conc_init pc_count
    simp
  · unfold conc_init pc_count
    simp

/-- C7 — N callers each selling one unit of the same item, starting stock
N: under every interleaving of their statements that runs each call to
completion, every call succeeds (none aborts), the final quantity is
exactly 0, and exactly N sale rows are recorded — no lost update, no
negative stock.  (Each decrement is the atomic relative
`UPDATE … SET quantity = quantity - 1`, and a call's stock check precedes
its own decrement, so at most N-1 decrements can precede any check.) -/
theorem C7_concurrent_unit_sales (N : ℕ) (x : String) (p : Rat)
    (cust : Fin N → String) (d : Nat) (sched : List (Fin N)) (hN : 1 ≤ N)
    (hterm : ∀ i, (conc_run x cust d (conc_init x p N) sched).pcs i = .done ∨
        (conc_run x cust d (conc_init x p N) sched).pcs i = .failed) :
    (∀ i, (conc_run x cust d (conc_init x p N) sched).pcs i = .done) ∧
    get_current_quantity (conc_run x cust d (conc_init x p N) sched).inv x = 0 ∧
    (conc_run x cust d (conc_init x p N) sched).sales.length = N := by
  obtain ⟨hnf, hinv, hsl⟩ :=
    conc_inv_run x p cust d sched (conc_init x p N) (conc_inv_init x p N)
  have hall : ∀ i, (conc_run x cust d (conc_init x p N) sched).pcs i = .done :=
    fun i => (hterm i).resolve_right (hnf i)
  refine ⟨hall, ?_, ?_⟩
  · rw [hinv] at *
    have hcnt := pc_count_univ_of_all
      ((conc_run x cust d (conc_init x p N) sched).pcs) (fun pc => pc = SalePC.done) hall
    simp [get_current_quantity, List.find?, hcnt]
  · rw [hsl]
    exact pc_count_univ_of_all _ _ (fun i => Or.inr (hall i))

/-- C7 witness — two callers, stock 2, a schedule interleaving their four
statements; both finish sold out to zero with two sale rows. -/
theorem C7_concurrent_unit_sales_witness :
    (∀ i : Fin 2, (conc_run "aspirin" (fun j => "A") 0 (conc_init "aspirin" 2 2)
        [0, 1, 0, 1, 0, 1, 0, 1]).pcs i = .done) ∧
    get_current_quantity (conc_run "aspirin" (fun j => "A") 0 (conc_init "aspirin" 2 2)
        [0, 1, 0, 1, 0, 1, 0, 1]).inv "aspirin" = 0 ∧
    (conc_run "aspirin" (fun j => "A") 0 (conc_init "aspirin" 2 2)
        [0, 1, 0, 1, 0, 1, 0, 1]).sales.length = 2 :=
  C7_concurrent_unit_sales 2 "aspirin" 2 (fun j => "A") 0 [0, 1, 0, 1, 0, 1, 0, 1]
    (by decide) (by decide)
